import Mathlib

/-!
A shallow embedding of `gitlabclient.go` (package `gitlabclient`).

The Go package is a thin wrapper around the GitLab client library.  Its
functions are embedded as explicit state-passing functions over a `World`
that holds the package-level variables, the process environment, the number of
client handles constructed so far and the log of remote API calls.  The client
library and the remote API are an external collaborator: they are a parameter
(`Gitlab`) whose replies may depend on the whole call history.  The standard
library's `base64.StdEncoding` is modelled concretely.
-/

namespace gitlabclient

/-! ## Data model -/

/-- Go `error` values that can flow through the package: `errors.New(s)`,
`base64.CorruptInputError(off)`, and errors made by the client library. -/
inductive error where
  | errorString (s : String)
  | CorruptInputError (off : Nat)
  | remote (msg : String)
deriving DecidableEq, Repr

/-- A `*gitlab.Client`: a heap object identified by its address, remembering the
token and base URL it was constructed with. -/
structure Client where
  addr : Nat
  token : String
  baseURL : String
deriving DecidableEq, Repr

/-- The request descriptor `GitLabClient`. -/
structure GitLabClient where
  URL : String
  Project : String
  Branch : String
  Path : String
  Message : String
deriving DecidableEq, Repr

/-- Value object `gitlab.Branch`; only its identity matters here. -/
structure Branch where
  Name : String
deriving DecidableEq, Repr

/-- Value object `gitlab.Commit`. -/
structure Commit where
  ID : String
deriving DecidableEq, Repr

/-- Value object `gitlab.MergeRequest`. -/
structure MergeRequest where
  IID : Int
deriving DecidableEq, Repr

/-- Value object `gitlab.ProjectMirror`. -/
structure ProjectMirror where
  ID : Int
deriving DecidableEq, Repr

/-- Value object `gitlab.Response`. -/
structure Response where
  StatusCode : Int
deriving DecidableEq, Repr

/-- The `gitlab.ForkParent` record; the package reads its `ID`. -/
structure ForkParent where
  ID : Int
deriving DecidableEq, Repr

/-- The `gitlab.Project` record; the package reads `ForkedFromProject`, a pointer
that is nil when the project is not a fork. -/
structure Project where
  ID : Int
  ForkedFromProject : Option ForkParent
deriving DecidableEq, Repr

/-- A Go byte string / byte slice: a list of byte values (each below 256). -/
abbrev Bytes := List Nat

/-- The `gitlab.File` record; `Content` is the transport string, kept as bytes
because the code hands it to the base64 decoder. -/
structure File where
  Content : Bytes
deriving DecidableEq, Repr

/-- The constants of `gitlab.FileActionValue`. -/
inductive FileActionValue where
  | FileCreate
  | FileDelete
  | FileMove
  | FileUpdate
  | FileChmod
deriving DecidableEq, Repr

/-- Options record `gitlab.CreateBranchOptions` (pointer fields are `Option`s, nil is
`none`). -/
structure CreateBranchOptions where
  Branch : Option String
  Ref : Option String
deriving DecidableEq, Repr

/-- Options record `gitlab.CommitActionOptions`.  A nil `Encoding` means the content
is literal text; `"base64"` would mark it as encoded. -/
structure CommitActionOptions where
  Action : Option FileActionValue
  FilePath : Option String
  PreviousPath : Option String
  Content : Option String
  Encoding : Option String
  LastCommitID : Option String
  ExecuteFilemode : Option Bool
deriving DecidableEq, Repr

/-- Options record `gitlab.CreateCommitOptions`. -/
structure CreateCommitOptions where
  Branch : Option String
  CommitMessage : Option String
  StartBranch : Option String
  StartSHA : Option String
  StartProject : Option String
  Actions : List CommitActionOptions
  AuthorEmail : Option String
  AuthorName : Option String
  Stats : Option Bool
  Force : Option Bool
deriving DecidableEq, Repr

/-- Options record `gitlab.CreateMergeRequestOptions`, restricted to the fields the
package sets. -/
structure CreateMergeRequestOptions where
  Title : Option String
  SourceBranch : Option String
  TargetBranch : Option String
  TargetProjectID : Option Int
deriving DecidableEq, Repr

/-- Options record `gitlab.AddProjectMirrorOptions`, restricted to the fields the
package sets. -/
structure AddProjectMirrorOptions where
  URL : Option String
  Enabled : Option Bool
deriving DecidableEq, Repr

/-- Options record `gitlab.GetFileOptions`. -/
structure GetFileOptions where
  Ref : Option String
deriving DecidableEq, Repr

/-- Options record `gitlab.GetProjectOptions`; the package passes the zero value. -/
structure GetProjectOptions where
  Statistics : Option Bool
deriving DecidableEq, Repr

/-- One remote API request, as seen on the wire: the handle it went through, the
project it is addressed to and its payload. -/
inductive Call where
  | CreateBranch (c : Client) (pid : String) (opt : CreateBranchOptions)
  | GetBranch (c : Client) (pid : String) (branch : String)
  | DeleteBranch (c : Client) (pid : String) (branch : String)
  | GetFile (c : Client) (pid : String) (fileName : String) (opt : GetFileOptions)
  | CreateCommit (c : Client) (pid : String) (opt : CreateCommitOptions)
  | CreateMergeRequest (c : Client) (pid : String) (opt : CreateMergeRequestOptions)
  | AddProjectMirror (c : Client) (pid : String) (opt : AddProjectMirrorOptions)
  | GetProject (c : Client) (pid : String) (opt : GetProjectOptions)
deriving DecidableEq, Repr

/-- The client library together with the remote server.  `NewClient token url`
is the constructor called with `WithBaseURL(url)`: `none` means it built a
handle, `some e` that it returned a nil handle and the error `e`.  Every
service method receives the log of the calls made so far, so a reply may
depend on the history, and returns the Go pair (value, error). -/
structure Gitlab where
  NewClient : String → String → Option error
  CreateBranch : List Call → Client → String → CreateBranchOptions →
    Option Branch × Option error
  GetBranch : List Call → Client → String → String → Option Branch × Option error
  DeleteBranch : List Call → Client → String → String → Option Response × Option error
  GetFile : List Call → Client → String → String → GetFileOptions →
    Option File × Option error
  CreateCommit : List Call → Client → String → CreateCommitOptions →
    Option Commit × Option error
  CreateMergeRequest : List Call → Client → String → CreateMergeRequestOptions →
    Option MergeRequest × Option error
  AddProjectMirror : List Call → Client → String → AddProjectMirrorOptions →
    Option ProjectMirror × Option error
  GetProject : List Call → Client → String → GetProjectOptions →
    Option Project × Option error

/-- Process state: the package-level variables `BaseURL`, `BaseBranch` and
`client`, the environment, the number of handles constructed so far (the next
free address) and the log of remote calls. -/
structure World where
  BaseURL : String
  BaseBranch : String
  client : Option Client
  env : String → Option String
  handles : Nat
  log : List Call

/-- The state of a fresh process with the given environment: the package
variables hold their initialisers and nothing has happened yet. -/
def World.init (env : String → Option String) : World :=
  { BaseURL := "https://gitlab.com", BaseBranch := "master", client := none,
    env := env, handles := 0, log := [] }

/-- How a Go call ends: it returns, or a run-time panic unwinds it. -/
inductive Outcome (α : Type) where
  | ret (v : α)
  | panic (msg : String)
deriving DecidableEq, Repr

/-- The message of the run-time panic raised by a nil pointer dereference. -/
def nilDeref : String :=
  "runtime error: invalid memory address or nil pointer dereference"

/-! ## Standard base64 (`encoding/base64`, `StdEncoding`) -/

/-- The alphabet of `base64.StdEncoding`, as bytes. -/
def encodeStd : Bytes :=
  "ABCDEFGHIJKLMNOPQRSTUVWXYZabcdefghijklmnopqrstuvwxyz0123456789+/".toList.map Char.toNat

/-- The table lookup `enc.encode[i]`. -/
def encodeByte (i : Nat) : Nat := encodeStd.getD i 0

/-- The table `enc.decodeMap`: the index of a byte in the alphabet, and `0xff` for a
byte that is not in it. -/
def decodeMap (b : Nat) : Nat :=
  if encodeStd.indexOf b < encodeStd.length then encodeStd.indexOf b else 0xff

/-- The method `EncodeToString` of `StdEncoding`: three bytes become four
alphabet characters, and a last group of one or two bytes is padded with `=`
(byte 61). -/
def EncodeToString : Bytes → Bytes
  | a :: b :: c :: rest =>
    [encodeByte ((a <<< 16 ||| b <<< 8 ||| c) >>> 18 &&& 0x3F),
     encodeByte ((a <<< 16 ||| b <<< 8 ||| c) >>> 12 &&& 0x3F),
     encodeByte ((a <<< 16 ||| b <<< 8 ||| c) >>> 6 &&& 0x3F),
     encodeByte ((a <<< 16 ||| b <<< 8 ||| c) &&& 0x3F)] ++ EncodeToString rest
  | [a, b] =>
    [encodeByte ((a <<< 16 ||| b <<< 8) >>> 18 &&& 0x3F),
     encodeByte ((a <<< 16 ||| b <<< 8) >>> 12 &&& 0x3F),
     encodeByte ((a <<< 16 ||| b <<< 8) >>> 6 &&& 0x3F), 61]
  | [a] =>
    [encodeByte ((a <<< 16) >>> 18 &&& 0x3F), encodeByte ((a <<< 16) >>> 12 &&& 0x3F), 61, 61]
  | [] => []

/-- The inner loops of `decodeQuantum` that skip over `\n` (10) and `\r` (13):
returns the input left and the index reached. -/
def skipNewlines : Bytes → Nat → Bytes × Nat
  | [], si => ([], si)
  | c :: rest, si => if c = 10 ∨ c = 13 then skipNewlines rest (si + 1) else (c :: rest, si)

/-- The end of `decodeQuantum`: the sextets collected in `dbuf` (missing ones are
zero) are packed into 24 bits and the first `dlen - 1` bytes are stored. -/
def quantum (dbuf : Bytes) (dlen : Nat) : Bytes :=
  [((dbuf.getD 0 0 <<< 18 ||| dbuf.getD 1 0 <<< 12 ||| dbuf.getD 2 0 <<< 6 ||| dbuf.getD 3 0)
      >>> 16) % 256,
   ((dbuf.getD 0 0 <<< 18 ||| dbuf.getD 1 0 <<< 12 ||| dbuf.getD 2 0 <<< 6 ||| dbuf.getD 3 0)
      >>> 8) % 256,
   ((dbuf.getD 0 0 <<< 18 ||| dbuf.getD 1 0 <<< 12 ||| dbuf.getD 2 0 <<< 6 ||| dbuf.getD 3 0)
      >>> 0) % 256].take (dlen - 1)

/-- After the padding of a quantum has been read: skip newlines; anything left is
trailing garbage, reported together with the bytes of the quantum. -/
def finish (rest : Bytes) (si : Nat) (dbuf dst : Bytes) : Bytes × Option error :=
  match skipNewlines rest si with
  | ([], _) => (dst ++ quantum dbuf dbuf.length, none)
  | (_ :: _, si1) => (dst ++ quantum dbuf dbuf.length, some (error.CorruptInputError si1))

/-- The padding branch of `decodeQuantum`, entered after a `=` was consumed (`si`
is the index after it) with `dbuf.length` sextets read: none or one is incorrect
padding, two expects a second `=`. -/
def padding (len : Nat) (rest : Bytes) (si : Nat) (dbuf dst : Bytes) : Bytes × Option error :=
  if dbuf.length < 2 then (dst, some (error.CorruptInputError (si - 1)))
  else if dbuf.length = 2 then
    match skipNewlines rest si with
    | ([], _) => (dst, some (error.CorruptInputError len))
    | (c :: rest1, si1) =>
      if c ≠ 61 then (dst, some (error.CorruptInputError (si1 - 1)))
      else finish rest1 (si1 + 1) dbuf dst
  else finish rest si dbuf dst

/-- The method `Decode` of `StdEncoding` (not strict, padded), one input byte at a
time: the loop over `decodeQuantum` with its loop over the four positions of a
quantum, `dbuf` holding the sextets of the current quantum and `dst` the bytes
decoded so far.  The 8- and 4-character fast paths of `Decode` compute the same
function and are not modelled separately. -/
def decodeLoop (len : Nat) : Bytes → Nat → Bytes → Bytes → Bytes × Option error
  | [], si, dbuf, dst =>
    if dbuf.length = 0 then (dst, none)
    else (dst, some (error.CorruptInputError (si - dbuf.length)))
  | c :: rest, si, dbuf, dst =>
    if decodeMap c ≠ 0xff then
      if dbuf.length = 3 then
        decodeLoop len rest (si + 1) [] (dst ++ quantum (dbuf ++ [decodeMap c]) 4)
      else decodeLoop len rest (si + 1) (dbuf ++ [decodeMap c]) dst
    else if c = 10 ∨ c = 13 then decodeLoop len rest (si + 1) dbuf dst
    else if c ≠ 61 then (dst, some (error.CorruptInputError si))
    else padding len rest (si + 1) dbuf dst

/-- The method `DecodeString` of `StdEncoding`: the bytes decoded, and the error if
the input is corrupt. -/
def DecodeString (s : Bytes) : Bytes × Option error := decodeLoop s.length s 0 [] []

/-- The bytes of an ASCII string literal. -/
def ascii (s : String) : Bytes := s.toList.map Char.toNat

/-! ## The client accessor -/

/-- The function `getClient`.  The short variable declaration
`client, err := gitlab.NewClient(...)` declares variables local to the function,
so the package-level `client` is read by the guard but never assigned. -/
def getClient (lib : Gitlab) (url : String) (w : World) :
    (Option Client × Option error) × World :=
  match w.client with
  | some c => ((some c, none), w)
  | none =>
    match w.env "GITLAB_TOKEN" with
    | none => ((none, some (error.errorString "GITLAB_TOKEN not set\n")), w)
    | some token =>
      match lib.NewClient token url with
      | some e => ((none, some e), w)
      | none =>
        ((some { addr := w.handles, token := token, baseURL := url }, none),
          { w with handles := w.handles + 1 })

/-! ## Repository operations -/

/-- The function `CreateBranch`. -/
def CreateBranch (lib : Gitlab) (g : GitLabClient) (w : World) :
    Outcome (Option Branch × Option error) × World :=
  match getClient lib g.URL w with
  | ((_, some err), w1) => (Outcome.ret (none, some err), w1)
  | ((none, none), w1) => (Outcome.panic nilDeref, w1)
  | ((some client, none), w1) =>
    (Outcome.ret (lib.CreateBranch w1.log client g.Project
        { Branch := some g.Branch, Ref := some w1.BaseBranch }),
      { w1 with log := w1.log ++ [Call.CreateBranch client g.Project
        { Branch := some g.Branch, Ref := some w1.BaseBranch }] })

/-- The function `GetBranch`. -/
def GetBranch (lib : Gitlab) (g : GitLabClient) (w : World) :
    Outcome (Option Branch × Option error) × World :=
  match getClient lib g.URL w with
  | ((_, some err), w1) => (Outcome.ret (none, some err), w1)
  | ((none, none), w1) => (Outcome.panic nilDeref, w1)
  | ((some client, none), w1) =>
    (Outcome.ret (lib.GetBranch w1.log client g.Project g.Branch),
      { w1 with log := w1.log ++ [Call.GetBranch client g.Project g.Branch] })

/-- The function `DeleteBranch`. -/
def DeleteBranch (lib : Gitlab) (g : GitLabClient) (w : World) :
    Outcome (Option Response × Option error) × World :=
  match getClient lib g.URL w with
  | ((_, some err), w1) => (Outcome.ret (none, some err), w1)
  | ((none, none), w1) => (Outcome.panic nilDeref, w1)
  | ((some client, none), w1) =>
    (Outcome.ret (lib.DeleteBranch w1.log client g.Project g.Branch),
      { w1 with log := w1.log ++ [Call.DeleteBranch client g.Project g.Branch] })

/-- The commit action built by one iteration of the `range files` loop of
`CreateCommit` for the entry with key `k` and value `v`: only `Action`,
`FilePath` and `Content` are set. -/
def fileAction (k v : String) : CommitActionOptions :=
  { Action := some FileActionValue.FileUpdate, FilePath := some k, PreviousPath := none,
    Content := some v, Encoding := none, LastCommitID := none, ExecuteFilemode := none }

/-- The loop `for k, v := range files { actions = append(actions, ...) }`.  The
map is given as the sequence of its entries in the order the run time visits
them (keys pairwise distinct).  Each iteration has its own `k` and `v`, as in
Go 1.22 and later, so the pointers `&k` and `&v` stored in an action keep the
values of that iteration. -/
def buildActions : List (String × String) → List CommitActionOptions →
    List CommitActionOptions
  | [], actions => actions
  | (k, v) :: rest, actions => buildActions rest (actions ++ [fileAction k v])

/-- The request `&gitlab.CreateCommitOptions{...}` built by `CreateCommit`: the
descriptor's branch and message and the actions of the loop; no other field is
set. -/
def commitOptions (g : GitLabClient) (files : List (String × String)) : CreateCommitOptions :=
  { Branch := some g.Branch, CommitMessage := some g.Message, StartBranch := none,
    StartSHA := none, StartProject := none, Actions := buildActions files [],
    AuthorEmail := none, AuthorName := none, Stats := none, Force := none }

/-- The tail of `CreateCommit` after the branch has been ensured: build the
actions and submit the commit through the handle obtained at the start. -/
def submitCommit (lib : Gitlab) (g : GitLabClient) (files : List (String × String))
    (client : Client) (w : World) : Outcome (Option Commit × Option error) × World :=
  (Outcome.ret (lib.CreateCommit w.log client g.Project (commitOptions g files)),
    { w with log := w.log ++ [Call.CreateCommit client g.Project (commitOptions g files)] })

/-- The function `CreateCommit`. -/
def CreateCommit (lib : Gitlab) (g : GitLabClient) (files : List (String × String))
    (w : World) : Outcome (Option Commit × Option error) × World :=
  match getClient lib g.URL w with
  | ((_, some err), w1) => (Outcome.ret (none, some err), w1)
  | ((none, none), w1) => (Outcome.panic nilDeref, w1)
  | ((some client, none), w1) =>
    match GetBranch lib g w1 with
    | (Outcome.panic m, w2) => (Outcome.panic m, w2)
    | (Outcome.ret (_, none), w2) => submitCommit lib g files client w2
    | (Outcome.ret (_, some _), w2) =>
      match CreateBranch lib g w2 with
      | (Outcome.panic m, w3) => (Outcome.panic m, w3)
      | (Outcome.ret (_, some err), w3) => (Outcome.ret (none, some err), w3)
      | (Outcome.ret (_, none), w3) => submitCommit lib g files client w3

/-- The function `GetFile`.  A nil byte slice is `none`; the slice returned by the
decoder is never nil. -/
def GetFile (lib : Gitlab) (g : GitLabClient) (w : World) :
    Outcome (Option Bytes × Option error) × World :=
  match getClient lib g.URL w with
  | ((_, some err), w1) => (Outcome.ret (none, some err), w1)
  | ((none, none), w1) => (Outcome.panic nilDeref, w1)
  | ((some client, none), w1) =>
    match lib.GetFile w1.log client g.Project g.Path { Ref := some g.Branch } with
    | (_, some err) =>
      (Outcome.ret (none, some err),
        { w1 with log := w1.log ++ [Call.GetFile client g.Project g.Path
          { Ref := some g.Branch }] })
    | (none, none) =>
      (Outcome.panic nilDeref,
        { w1 with log := w1.log ++ [Call.GetFile client g.Project g.Path
          { Ref := some g.Branch }] })
    | (some file, none) =>
      (Outcome.ret (some (DecodeString file.Content).1, (DecodeString file.Content).2),
        { w1 with log := w1.log ++ [Call.GetFile client g.Project g.Path
          { Ref := some g.Branch }] })

/-- The function `GetProject`. -/
def GetProject (lib : Gitlab) (g : GitLabClient) (w : World) :
    Outcome (Option Project × Option error) × World :=
  match getClient lib g.URL w with
  | ((_, some err), w1) => (Outcome.ret (none, some err), w1)
  | ((none, none), w1) => (Outcome.panic nilDeref, w1)
  | ((some client, none), w1) =>
    match lib.GetProject w1.log client g.Project { Statistics := none } with
    | (_, some err) =>
      (Outcome.ret (none, some err),
        { w1 with log := w1.log ++ [Call.GetProject client g.Project { Statistics := none }] })
    | (project, none) =>
      (Outcome.ret (project, none),
        { w1 with log := w1.log ++ [Call.GetProject client g.Project { Statistics := none }] })

/-- The function `GetForkParent`.  Reading `project.ForkedFromProject` through a
nil `project` panics; a nil `ForkedFromProject` is returned as a nil result with
a nil error. -/
def GetForkParent (lib : Gitlab) (g : GitLabClient) (w : World) :
    Outcome (Option ForkParent × Option error) × World :=
  match GetProject lib g w with
  | (Outcome.panic m, w1) => (Outcome.panic m, w1)
  | (Outcome.ret (_, some err), w1) => (Outcome.ret (none, some err), w1)
  | (Outcome.ret (none, none), w1) => (Outcome.panic nilDeref, w1)
  | (Outcome.ret (some project, none), w1) =>
    (Outcome.ret (project.ForkedFromProject, none), w1)

/-- The function `CreateMergeRequest`.  The argument `&forkParent.ID` is
evaluated before the library call, and panics when `forkParent` is nil.  The
error of the library call is dropped: the function returns `mergeRequest, nil`. -/
def CreateMergeRequest (lib : Gitlab) (g : GitLabClient) (w : World) :
    Outcome (Option MergeRequest × Option error) × World :=
  match getClient lib g.URL w with
  | ((_, some err), w1) => (Outcome.ret (none, some err), w1)
  | ((none, none), w1) => (Outcome.panic nilDeref, w1)
  | ((some client, none), w1) =>
    match GetForkParent lib g w1 with
    | (Outcome.panic m, w2) => (Outcome.panic m, w2)
    | (Outcome.ret (_, some err), w2) => (Outcome.ret (none, some err), w2)
    | (Outcome.ret (none, none), w2) => (Outcome.panic nilDeref, w2)
    | (Outcome.ret (some forkParent, none), w2) =>
      (Outcome.ret ((lib.CreateMergeRequest w2.log client g.Project
          { Title := some g.Message, SourceBranch := some g.Branch,
            TargetBranch := some w2.BaseBranch, TargetProjectID := some forkParent.ID }).1,
          none),
        { w2 with log := w2.log ++ [Call.CreateMergeRequest client g.Project
          { Title := some g.Message, SourceBranch := some g.Branch,
            TargetBranch := some w2.BaseBranch, TargetProjectID := some forkParent.ID }] })

/-- The function `CreatePullMirror`.  The error of the library call is dropped:
the function returns `mirror, nil`. -/
def CreatePullMirror (lib : Gitlab) (g : GitLabClient) (w : World) :
    Outcome (Option ProjectMirror × Option error) × World :=
  match getClient lib g.URL w with
  | ((_, some err), w1) => (Outcome.ret (none, some err), w1)
  | ((none, none), w1) => (Outcome.panic nilDeref, w1)
  | ((some client, none), w1) =>
    (Outcome.ret ((lib.AddProjectMirror w1.log client g.Project
        { URL := some "https://gitlab.cee.redhat.com/service/clusterimagesets.git",
          Enabled := some true }).1, none),
      { w1 with log := w1.log ++ [Call.AddProjectMirror client g.Project
        { URL := some "https://gitlab.cee.redhat.com/service/clusterimagesets.git",
          Enabled := some true }] })

/-! ## A simulated server, for evaluating the operations at concrete inputs -/

/-- Whether a character is an ASCII control character (below 0x20, or 0x7f). -/
def isCTL (c : Char) : Bool := decide (c.toNat < 0x20) || decide (c.toNat = 0x7f)

/-- Whether the branch `branch` of project `pid` was created by a call in the log. -/
def created (log : List Call) (pid branch : String) : Bool :=
  log.any fun c =>
    match c with
    | Call.CreateBranch _ p opt => decide (p = pid) && decide (opt.Branch = some branch)
    | _ => false

/-- A small simulated collaborator.  Its constructor rejects a base URL holding a
control character, as the URL parser behind `WithBaseURL` does.  On the server
the branch `master` exists, further branches exist once created, the empty
branch name cannot be created, `fork/repo` is a fork of project 1 and
`upstream/repo` is not a fork, `config.yaml` holds `config: true`, and
merge-request and mirror creation are refused. -/
def demo : Gitlab where
  NewClient := fun _ url =>
    if url.toList.any isCTL then
      some (error.remote "net/url: invalid control character in URL")
    else none
  CreateBranch := fun _ _ _ opt =>
    match opt.Branch with
    | some b =>
      if b = "" then (none, some (error.remote "400 Bad Request: branch is invalid"))
      else (some { Name := b }, none)
    | none => (none, some (error.remote "400 Bad Request: branch is missing"))
  GetBranch := fun log _ pid branch =>
    if branch = "master" ∨ created log pid branch = true then (some { Name := branch }, none)
    else (none, some (error.remote "404 Branch Not Found"))
  DeleteBranch := fun _ _ _ _ => (some { StatusCode := 204 }, none)
  GetFile := fun _ _ _ fileName _ =>
    if fileName = "config.yaml" then
      (some { Content := EncodeToString (ascii "config: true") }, none)
    else (none, some (error.remote "404 File Not Found"))
  CreateCommit := fun _ _ _ _ => (some { ID := "6104942438c14ec7bd21c6cd5bd995272b3faff6" }, none)
  CreateMergeRequest := fun _ _ _ _ => (none, some (error.remote "409 Conflict"))
  AddProjectMirror := fun _ _ _ _ => (none, some (error.remote "403 Forbidden"))
  GetProject := fun _ _ pid _ =>
    if pid = "fork/repo" then (some { ID := 2, ForkedFromProject := some { ID := 1 } }, none)
    else if pid = "upstream/repo" then (some { ID := 1, ForkedFromProject := none }, none)
    else (none, some (error.remote "404 Project Not Found"))

/-- An environment in which `GITLAB_TOKEN` is set, to `glpat-demo`. -/
def tokenEnv : String → Option String :=
  fun k => if k = "GITLAB_TOKEN" then some "glpat-demo" else none

/-- An environment in which no variable is set. -/
def emptyEnv : String → Option String := fun _ => none

/-- A descriptor for the branch `feature` of `fork/repo`. -/
def demoRequest : GitLabClient :=
  { URL := "https://gitlab.com", Project := "fork/repo", Branch := "feature",
    Path := "config.yaml", Message := "update files" }

/-- A descriptor for the branch `feature` of `upstream/repo`, a project that is not
a fork. -/
def upstreamRequest : GitLabClient :=
  { URL := "https://gitlab.com", Project := "upstream/repo", Branch := "feature",
    Path := "config.yaml", Message := "update files" }

/-! ## Vocabulary of the statements -/

/-- The result `r` of an operation started in state `w` is an abort with `e`: a nil
result together with the error `e`, and no remote call was added to the log. -/
def abortedWith {α : Type} (r : Outcome (Option α × Option error) × World) (e : error)
    (w : World) : Prop :=
  r.1 = Outcome.ret (none, some e) ∧ r.2.log = w.log

/-- Whether a commit action is an update of `path` carrying `content` as literal
text (no encoding marker). -/
def isUpdateOf (path content : String) (a : CommitActionOptions) : Bool :=
  decide (a.Action = some FileActionValue.FileUpdate ∧ a.FilePath = some path
    ∧ a.Content = some content ∧ a.Encoding = none)

/-- Whether a remote call is a commit creation. -/
def Call.isCreateCommit : Call → Bool
  | Call.CreateCommit _ _ _ => true
  | _ => false

/-- Whether a remote call is a merge-request creation. -/
def Call.isCreateMergeRequest : Call → Bool
  | Call.CreateMergeRequest _ _ _ => true
  | _ => false

/-! ## The client accessor: what it returns and what it leaves unchanged -/

theorem getClient_stored (lib : Gitlab) (url : String) (w : World) (c : Client)
    (h : w.client = some c) : getClient lib url w = ((some c, none), w) := by
  simp [getClient, h]

theorem getClient_unset (lib : Gitlab) (url : String) (w : World) (h : w.client = none)
    (he : w.env "GITLAB_TOKEN" = none) :
    getClient lib url w = ((none, some (error.errorString "GITLAB_TOKEN not set\n")), w) := by
  simp [getClient, h, he]

theorem getClient_rejected (lib : Gitlab) (url : String) (w : World) (tok : String) (e : error)
    (h : w.client = none) (he : w.env "GITLAB_TOKEN" = some tok)
    (hn : lib.NewClient tok url = some e) : getClient lib url w = ((none, some e), w) := by
  simp [getClient, h, he, hn]

theorem getClient_built (lib : Gitlab) (url : String) (w : World) (tok : String)
    (h : w.client = none) (he : w.env "GITLAB_TOKEN" = some tok)
    (hn : lib.NewClient tok url = none) :
    getClient lib url w
      = ((some { addr := w.handles, token := tok, baseURL := url }, none),
          { w with handles := w.handles + 1 }) := by
  simp [getClient, h, he, hn]

/-- The accessor never writes the package-level `client`, nor the other package
variables, the environment or the log. -/
theorem getClient_frame (lib : Gitlab) (url : String) (w : World) :
    (getClient lib url w).2.client = w.client ∧ (getClient lib url w).2.env = w.env
      ∧ (getClient lib url w).2.log = w.log
      ∧ (getClient lib url w).2.BaseBranch = w.BaseBranch := by
  unfold getClient
  split
  · simp
  · split
    · simp
    · split <;> simp

/-- The accessor returns a handle exactly when it returns a nil error. -/
theorem getClient_cases (lib : Gitlab) (url : String) (w : World) :
    (∃ c, (getClient lib url w).1 = (some c, none))
      ∨ (∃ e, (getClient lib url w).1 = (none, some e) ∧ (getClient lib url w).2 = w) := by
  unfold getClient
  split
  · simp
  · split
    · simp
    · split <;> simp

/-- Whether the accessor fails, and with which error, depends only on the stored
handle and the environment, not on the rest of the state. -/
theorem getClient_error_congr (lib : Gitlab) (url : String) (w w1 : World)
    (hc : w1.client = w.client) (he : w1.env = w.env) :
    (getClient lib url w1).1.2 = (getClient lib url w).1.2 := by
  unfold getClient
  rw [hc, he]
  split
  · simp
  · split
    · simp
    · split <;> simp

/-! ## Every operation aborts when the accessor fails -/

theorem CreateBranch_of_fail (lib : Gitlab) (g : GitLabClient) (w : World) (x : Option Client)
    (e : error) (h : (getClient lib g.URL w).1 = (x, some e)) :
    CreateBranch lib g w = (Outcome.ret (none, some e), (getClient lib g.URL w).2) := by
  unfold CreateBranch
  generalize getClient lib g.URL w = r at h
  obtain ⟨⟨x1, y1⟩, w1⟩ := r
  simp only [Prod.mk.injEq] at h
  obtain ⟨rfl, rfl⟩ := h
  cases x1 <;> rfl

theorem GetBranch_of_fail (lib : Gitlab) (g : GitLabClient) (w : World) (x : Option Client)
    (e : error) (h : (getClient lib g.URL w).1 = (x, some e)) :
    GetBranch lib g w = (Outcome.ret (none, some e), (getClient lib g.URL w).2) := by
  unfold GetBranch
  generalize getClient lib g.URL w = r at h
  obtain ⟨⟨x1, y1⟩, w1⟩ := r
  simp only [Prod.mk.injEq] at h
  obtain ⟨rfl, rfl⟩ := h
  cases x1 <;> rfl

theorem DeleteBranch_of_fail (lib : Gitlab) (g : GitLabClient) (w : World) (x : Option Client)
    (e : error) (h : (getClient lib g.URL w).1 = (x, some e)) :
    DeleteBranch lib g w = (Outcome.ret (none, some e), (getClient lib g.URL w).2) := by
  unfold DeleteBranch
  generalize getClient lib g.URL w = r at h
  obtain ⟨⟨x1, y1⟩, w1⟩ := r
  simp only [Prod.mk.injEq] at h
  obtain ⟨rfl, rfl⟩ := h
  cases x1 <;> rfl

theorem GetFile_of_fail (lib : Gitlab) (g : GitLabClient) (w : World) (x : Option Client)
    (e : error) (h : (getClient lib g.URL w).1 = (x, some e)) :
    GetFile lib g w = (Outcome.ret (none, some e), (getClient lib g.URL w).2) := by
  unfold GetFile
  generalize getClient lib g.URL w = r at h
  obtain ⟨⟨x1, y1⟩, w1⟩ := r
  simp only [Prod.mk.injEq] at h
  obtain ⟨rfl, rfl⟩ := h
  cases x1 <;> rfl

theorem GetProject_of_fail (lib : Gitlab) (g : GitLabClient) (w : World) (x : Option Client)
    (e : error) (h : (getClient lib g.URL w).1 = (x, some e)) :
    GetProject lib g w = (Outcome.ret (none, some e), (getClient lib g.URL w).2) := by
  unfold GetProject
  generalize getClient lib g.URL w = r at h
  obtain ⟨⟨x1, y1⟩, w1⟩ := r
  simp only [Prod.mk.injEq] at h
  obtain ⟨rfl, rfl⟩ := h
  cases x1 <;> rfl

theorem CreateMergeRequest_of_fail (lib : Gitlab) (g : GitLabClient) (w : World) (x : Option Client)
    (e : error) (h : (getClient lib g.URL w).1 = (x, some e)) :
    CreateMergeRequest lib g w = (Outcome.ret (none, some e), (getClient lib g.URL w).2) := by
  unfold CreateMergeRequest
  generalize getClient lib g.URL w = r at h
  obtain ⟨⟨x1, y1⟩, w1⟩ := r
  simp only [Prod.mk.injEq] at h
  obtain ⟨rfl, rfl⟩ := h
  cases x1 <;> rfl

theorem CreatePullMirror_of_fail (lib : Gitlab) (g : GitLabClient) (w : World) (x : Option Client)
    (e : error) (h : (getClient lib g.URL w).1 = (x, some e)) :
    CreatePullMirror lib g w = (Outcome.ret (none, some e), (getClient lib g.URL w).2) := by
  unfold CreatePullMirror
  generalize getClient lib g.URL w = r at h
  obtain ⟨⟨x1, y1⟩, w1⟩ := r
  simp only [Prod.mk.injEq] at h
  obtain ⟨rfl, rfl⟩ := h
  cases x1 <;> rfl

theorem CreateCommit_of_fail (lib : Gitlab) (g : GitLabClient) (files : List (String × String))
    (w : World) (x : Option Client) (e : error) (h : (getClient lib g.URL w).1 = (x, some e)) :
    CreateCommit lib g files w = (Outcome.ret (none, some e), (getClient lib g.URL w).2) := by
  unfold CreateCommit
  generalize getClient lib g.URL w = r at h
  obtain ⟨⟨x1, y1⟩, w1⟩ := r
  simp only [Prod.mk.injEq] at h
  obtain ⟨rfl, rfl⟩ := h
  cases x1 <;> rfl

theorem GetForkParent_of_fail (lib : Gitlab) (g : GitLabClient) (w : World) (x : Option Client)
    (e : error) (h : (getClient lib g.URL w).1 = (x, some e)) :
    GetForkParent lib g w = (Outcome.ret (none, some e), (getClient lib g.URL w).2) := by
  unfold GetForkParent
  rw [GetProject_of_fail lib g w x e h]

/-! ## The operations when the accessor returns a handle -/

theorem CreateBranch_of_ok (lib : Gitlab) (g : GitLabClient) (w : World) (c : Client)
    (h : (getClient lib g.URL w).1 = (some c, none)) :
    CreateBranch lib g w
      = (Outcome.ret (lib.CreateBranch w.log c g.Project
            { Branch := some g.Branch, Ref := some w.BaseBranch }),
          { (getClient lib g.URL w).2 with
            log := w.log ++ [Call.CreateBranch c g.Project
              { Branch := some g.Branch, Ref := some w.BaseBranch }] }) := by
  obtain ⟨_, _, hl, hb⟩ := getClient_frame lib g.URL w
  unfold CreateBranch
  generalize getClient lib g.URL w = r at h hl hb
  obtain ⟨⟨x1, y1⟩, w1⟩ := r
  simp only [Prod.mk.injEq] at h
  obtain ⟨rfl, rfl⟩ := h
  simp only at hl hb
  simp only [hl, hb]

theorem GetBranch_of_ok (lib : Gitlab) (g : GitLabClient) (w : World) (c : Client)
    (h : (getClient lib g.URL w).1 = (some c, none)) :
    GetBranch lib g w
      = (Outcome.ret (lib.GetBranch w.log c g.Project g.Branch),
          { (getClient lib g.URL w).2 with
            log := w.log ++ [Call.GetBranch c g.Project g.Branch] }) := by
  obtain ⟨_, _, hl, hb⟩ := getClient_frame lib g.URL w
  unfold GetBranch
  generalize getClient lib g.URL w = r at h hl hb
  obtain ⟨⟨x1, y1⟩, w1⟩ := r
  simp only [Prod.mk.injEq] at h
  obtain ⟨rfl, rfl⟩ := h
  simp only at hl hb
  simp only [hl]

theorem CreatePullMirror_of_ok (lib : Gitlab) (g : GitLabClient) (w : World) (c : Client)
    (h : (getClient lib g.URL w).1 = (some c, none)) :
    CreatePullMirror lib g w
      = (Outcome.ret ((lib.AddProjectMirror w.log c g.Project
            { URL := some "https://gitlab.cee.redhat.com/service/clusterimagesets.git",
              Enabled := some true }).1, none),
          { (getClient lib g.URL w).2 with
            log := w.log ++ [Call.AddProjectMirror c g.Project
              { URL := some "https://gitlab.cee.redhat.com/service/clusterimagesets.git",
                Enabled := some true }] }) := by
  obtain ⟨_, _, hl, hb⟩ := getClient_frame lib g.URL w
  unfold CreatePullMirror
  generalize getClient lib g.URL w = r at h hl hb
  obtain ⟨⟨x1, y1⟩, w1⟩ := r
  simp only [Prod.mk.injEq] at h
  obtain ⟨rfl, rfl⟩ := h
  simp only at hl hb
  simp only [hl]

/-! ## Sequencing inside `CreateCommit` and `CreateMergeRequest` -/

/-- If the accessor returned a handle in one state, it returns a handle in any state
with the same stored handle and environment. -/
theorem getClient_ok_congr (lib : Gitlab) (url : String) (w w1 : World) (c : Client)
    (h : (getClient lib url w).1 = (some c, none))
    (hc : w1.client = w.client) (he : w1.env = w.env) :
    ∃ c1, (getClient lib url w1).1 = (some c1, none) := by
  have h2 := getClient_error_congr lib url w w1 hc he
  rw [h] at h2
  rcases getClient_cases lib url w1 with hok | ⟨e, hfail, _⟩
  · exact hok
  · rw [hfail] at h2
    simp at h2

theorem GetBranch_frame (lib : Gitlab) (g : GitLabClient) (w : World) :
    (GetBranch lib g w).2.client = w.client ∧ (GetBranch lib g w).2.env = w.env
      ∧ (GetBranch lib g w).2.BaseBranch = w.BaseBranch := by
  obtain ⟨h1, h2, _, h4⟩ := getClient_frame lib g.URL w
  rcases getClient_cases lib g.URL w with ⟨c, hok⟩ | ⟨e, hfail, _⟩
  · rw [GetBranch_of_ok lib g w c hok]
    exact ⟨h1, h2, h4⟩
  · rw [GetBranch_of_fail lib g w none e hfail]
    exact ⟨h1, h2, h4⟩

theorem submitCommit_log (lib : Gitlab) (g : GitLabClient) (files : List (String × String))
    (c : Client) (w : World) :
    (submitCommit lib g files c w).2.log
      = w.log ++ [Call.CreateCommit c g.Project (commitOptions g files)] := rfl

theorem CreateCommit_of_ok (lib : Gitlab) (g : GitLabClient) (files : List (String × String))
    (w : World) (c : Client) (h : (getClient lib g.URL w).1 = (some c, none)) :
    CreateCommit lib g files w
      = match GetBranch lib g (getClient lib g.URL w).2 with
        | (Outcome.panic m, w2) => (Outcome.panic m, w2)
        | (Outcome.ret (_, none), w2) => submitCommit lib g files c w2
        | (Outcome.ret (_, some _), w2) =>
          match CreateBranch lib g w2 with
          | (Outcome.panic m, w3) => (Outcome.panic m, w3)
          | (Outcome.ret (_, some err), w3) => (Outcome.ret (none, some err), w3)
          | (Outcome.ret (_, none), w3) => submitCommit lib g files c w3 := by
  unfold CreateCommit
  generalize getClient lib g.URL w = r at h
  obtain ⟨⟨x1, y1⟩, w1⟩ := r
  simp only [Prod.mk.injEq] at h
  obtain ⟨rfl, rfl⟩ := h
  rfl

theorem CreateCommit_branch_exists (lib : Gitlab) (g : GitLabClient)
    (files : List (String × String)) (w : World) (c : Client) (b : Option Branch)
    (h : (getClient lib g.URL w).1 = (some c, none))
    (hG : (GetBranch lib g (getClient lib g.URL w).2).1 = Outcome.ret (b, none)) :
    CreateCommit lib g files w
      = submitCommit lib g files c (GetBranch lib g (getClient lib g.URL w).2).2 := by
  rw [CreateCommit_of_ok lib g files w c h]
  generalize GetBranch lib g (getClient lib g.URL w).2 = r at hG
  obtain ⟨o, w2⟩ := r
  simp only at hG
  subst hG
  rfl

theorem CreateCommit_branch_created (lib : Gitlab) (g : GitLabClient)
    (files : List (String × String)) (w : World) (c : Client) (b b1 : Option Branch)
    (e0 : error) (h : (getClient lib g.URL w).1 = (some c, none))
    (hG : (GetBranch lib g (getClient lib g.URL w).2).1 = Outcome.ret (b, some e0))
    (hC : (CreateBranch lib g (GetBranch lib g (getClient lib g.URL w).2).2).1
      = Outcome.ret (b1, none)) :
    CreateCommit lib g files w
      = submitCommit lib g files c
          (CreateBranch lib g (GetBranch lib g (getClient lib g.URL w).2).2).2 := by
  rw [CreateCommit_of_ok lib g files w c h]
  generalize GetBranch lib g (getClient lib g.URL w).2 = r at hG hC
  obtain ⟨o, w2⟩ := r
  simp only at hG hC
  subst hG
  simp only
  generalize CreateBranch lib g w2 = r2 at hC
  obtain ⟨o2, w3⟩ := r2
  simp only at hC
  subst hC
  rfl

theorem CreateCommit_branch_failed (lib : Gitlab) (g : GitLabClient)
    (files : List (String × String)) (w : World) (c : Client) (b b1 : Option Branch)
    (e0 e : error) (h : (getClient lib g.URL w).1 = (some c, none))
    (hG : (GetBranch lib g (getClient lib g.URL w).2).1 = Outcome.ret (b, some e0))
    (hC : (CreateBranch lib g (GetBranch lib g (getClient lib g.URL w).2).2).1
      = Outcome.ret (b1, some e)) :
    CreateCommit lib g files w
      = (Outcome.ret (none, some e),
          (CreateBranch lib g (GetBranch lib g (getClient lib g.URL w).2).2).2) := by
  rw [CreateCommit_of_ok lib g files w c h]
  generalize GetBranch lib g (getClient lib g.URL w).2 = r at hG hC
  obtain ⟨o, w2⟩ := r
  simp only at hG hC
  subst hG
  simp only
  generalize CreateBranch lib g w2 = r2 at hC
  obtain ⟨o2, w3⟩ := r2
  simp only at hC
  subst hC
  rfl

/-- The log after `GetBranch`: one get-branch call is added when the accessor returns
a handle. -/
theorem GetBranch_log (lib : Gitlab) (g : GitLabClient) (w : World) (c : Client)
    (h : (getClient lib g.URL w).1 = (some c, none)) :
    (GetBranch lib g w).2.log = w.log ++ [Call.GetBranch c g.Project g.Branch] := by
  rw [GetBranch_of_ok lib g w c h]

/-- The log after `CreateBranch`: one create-branch call is added when the accessor
returns a handle. -/
theorem CreateBranch_log (lib : Gitlab) (g : GitLabClient) (w : World) (c : Client)
    (h : (getClient lib g.URL w).1 = (some c, none)) :
    (CreateBranch lib g w).2.log
      = w.log ++ [Call.CreateBranch c g.Project
          { Branch := some g.Branch, Ref := some w.BaseBranch }] := by
  rw [CreateBranch_of_ok lib g w c h]

/-- The loop of `CreateCommit` appends one action per entry, in iteration order. -/
theorem buildActions_eq (files : List (String × String)) (acc : List CommitActionOptions) :
    buildActions files acc = acc ++ files.map fun e => fileAction e.1 e.2 := by
  induction files generalizing acc with
  | nil => simp [buildActions]
  | cons e rest ih =>
    obtain ⟨k, v⟩ := e
    simp [buildActions, ih]

/-- Inside `CreateCommit`, once the first accessor call returned a handle, the
accessor calls made by `GetBranch` and by `CreateBranch` return handles too, and
the log after the two nested operations is the old log followed by the
get-branch and the create-branch call. -/
theorem branch_fallback_log (lib : Gitlab) (g : GitLabClient) (w : World) (c : Client)
    (h : (getClient lib g.URL w).1 = (some c, none)) :
    ∃ c1 c2,
      (GetBranch lib g (getClient lib g.URL w).2).2.log
          = w.log ++ [Call.GetBranch c1 g.Project g.Branch]
        ∧ (CreateBranch lib g (GetBranch lib g (getClient lib g.URL w).2).2).2.log
          = w.log ++ [Call.GetBranch c1 g.Project g.Branch,
              Call.CreateBranch c2 g.Project
                { Branch := some g.Branch, Ref := some w.BaseBranch }] := by
  obtain ⟨hc1, he1, hl1, hb1⟩ := getClient_frame lib g.URL w
  obtain ⟨c1, h1⟩ := getClient_ok_congr lib g.URL w (getClient lib g.URL w).2 c h hc1 he1
  obtain ⟨hc2, he2, hb2⟩ := GetBranch_frame lib g (getClient lib g.URL w).2
  obtain ⟨c2, h2⟩ := getClient_ok_congr lib g.URL w
    (GetBranch lib g (getClient lib g.URL w).2).2 c h (hc2.trans hc1) (he2.trans he1)
  refine ⟨c1, c2, ?_, ?_⟩
  · rw [GetBranch_log lib g _ c1 h1, hl1]
  · rw [CreateBranch_log lib g _ c2 h2, GetBranch_log lib g _ c1 h1, hl1, hb2, hb1]
    simp

/-- The actions built from a file set with pairwise distinct paths hold, for every
entry, exactly one literal update of that path with that content. -/
theorem buildActions_count (files : List (String × String))
    (hkeys : (files.map Prod.fst).Nodup) (p c : String) (hmem : (p, c) ∈ files) :
    (buildActions files []).countP (isUpdateOf p c) = 1 := by
  have hnodup : files.Nodup := List.Nodup.of_map _ hkeys
  rw [buildActions_eq, List.nil_append, List.countP_map]
  have hfun : (isUpdateOf p c ∘ fun e : String × String => fileAction e.1 e.2)
      = fun e => decide (e = (p, c)) := by
    funext e
    obtain ⟨k, v⟩ := e
    simp [isUpdateOf, fileAction, Prod.mk.injEq]
  rw [hfun]
  have hcount := List.count_eq_one_of_mem hnodup hmem
  unfold List.count at hcount
  exact hcount

theorem GetProject_BaseBranch (lib : Gitlab) (g : GitLabClient) (w : World) :
    (GetProject lib g w).2.BaseBranch = w.BaseBranch := by
  have hb := (getClient_frame lib g.URL w).2.2.2
  unfold GetProject
  generalize getClient lib g.URL w = r at hb
  obtain ⟨⟨x1, y1⟩, w1⟩ := r
  simp only at hb
  cases y1 with
  | some e => cases x1 <;> exact hb
  | none =>
    cases x1 with
    | none => exact hb
    | some c =>
      simp only
      split <;> exact hb

theorem GetForkParent_BaseBranch (lib : Gitlab) (g : GitLabClient) (w : World) :
    (GetForkParent lib g w).2.BaseBranch = w.BaseBranch := by
  have hb := GetProject_BaseBranch lib g w
  unfold GetForkParent
  generalize GetProject lib g w = r at hb
  obtain ⟨o, w1⟩ := r
  simp only at hb
  split <;> simp_all

theorem CreateMergeRequest_of_ok (lib : Gitlab) (g : GitLabClient) (w : World) (c : Client)
    (h : (getClient lib g.URL w).1 = (some c, none)) :
    CreateMergeRequest lib g w
      = match GetForkParent lib g (getClient lib g.URL w).2 with
        | (Outcome.panic m, w2) => (Outcome.panic m, w2)
        | (Outcome.ret (_, some err), w2) => (Outcome.ret (none, some err), w2)
        | (Outcome.ret (none, none), w2) => (Outcome.panic nilDeref, w2)
        | (Outcome.ret (some forkParent, none), w2) =>
          (Outcome.ret ((lib.CreateMergeRequest w2.log c g.Project
              { Title := some g.Message, SourceBranch := some g.Branch,
                TargetBranch := some w2.BaseBranch,
                TargetProjectID := some forkParent.ID }).1, none),
            { w2 with log := w2.log ++ [Call.CreateMergeRequest c g.Project
              { Title := some g.Message, SourceBranch := some g.Branch,
                TargetBranch := some w2.BaseBranch,
                TargetProjectID := some forkParent.ID }] }) := by
  unfold CreateMergeRequest
  generalize getClient lib g.URL w = r at h
  obtain ⟨⟨x1, y1⟩, w1⟩ := r
  simp only [Prod.mk.injEq] at h
  obtain ⟨rfl, rfl⟩ := h
  rfl

/-- When the fork-parent fetch returns a nil fork parent with a nil error,
`CreateMergeRequest` panics on `&forkParent.ID` and the log is the one left by
the fetch: no merge-request creation is submitted. -/
theorem CreateMergeRequest_nil_fork_parent (lib : Gitlab) (g : GitLabClient) (w : World)
    (c : Client) (h : (getClient lib g.URL w).1 = (some c, none))
    (hF : (GetForkParent lib g (getClient lib g.URL w).2).1 = Outcome.ret (none, none)) :
    CreateMergeRequest lib g w
      = (Outcome.panic nilDeref, (GetForkParent lib g (getClient lib g.URL w).2).2) := by
  rw [CreateMergeRequest_of_ok lib g w c h]
  generalize GetForkParent lib g (getClient lib g.URL w).2 = r at hF
  obtain ⟨o, w2⟩ := r
  simp only at hF
  subst hF
  rfl

/-! ## Base64: decoding undoes encoding -/

theorem or_eq_add_of_dvd (x b i : Nat) (hb : b < 2 ^ i) (hx : 2 ^ i ∣ x) : x ||| b = x + b := by
  obtain ⟨k, rfl⟩ := hx
  exact (Nat.mul_add_lt_is_or hb k).symm

theorem val3_eq (a b c : Nat) (hb : b < 256) (hc : c < 256) :
    a <<< 16 ||| b <<< 8 ||| c = a * 65536 + b * 256 + c := by
  have h1 : a <<< 16 ||| b <<< 8 = a * 65536 + b * 256 := by
    rw [Nat.shiftLeft_eq, Nat.shiftLeft_eq]
    rw [or_eq_add_of_dvd _ _ 16 (by omega) (by norm_num)]
  rw [h1, or_eq_add_of_dvd _ _ 8 (by omega) (by omega)]

theorem val4_eq (d0 d1 d2 d3 : Nat) (h1 : d1 < 64) (h2 : d2 < 64) (h3 : d3 < 64) :
    d0 <<< 18 ||| d1 <<< 12 ||| d2 <<< 6 ||| d3 = d0 * 262144 + d1 * 4096 + d2 * 64 + d3 := by
  have e1 : d0 <<< 18 ||| d1 <<< 12 = d0 * 262144 + d1 * 4096 := by
    rw [Nat.shiftLeft_eq, Nat.shiftLeft_eq]
    rw [or_eq_add_of_dvd _ _ 18 (by omega) (by norm_num)]
  have e2 : d0 * 262144 + d1 * 4096 ||| d2 <<< 6 = d0 * 262144 + d1 * 4096 + d2 * 64 := by
    rw [Nat.shiftLeft_eq]
    rw [or_eq_add_of_dvd _ _ 12 (by omega) (by omega)]
  rw [e1, e2, or_eq_add_of_dvd _ _ 6 (by omega) (by omega)]

theorem and_3F (x : Nat) : x &&& 0x3F = x % 64 := Nat.and_pow_two_sub_one_eq_mod x 6

theorem decodeMap_encodeByte : ∀ s, s < 64 → decodeMap (encodeByte s) = s := by decide

theorem decodeMap_pad : decodeMap 61 = 0xff := by decide

theorem encodeByte_valid (s : Nat) (hs : s < 64) : decodeMap (encodeByte s) ≠ 0xff := by
  rw [decodeMap_encodeByte s hs]; omega

theorem decodeLoop_sextet (len s : Nat) (rest : Bytes) (si : Nat) (dbuf dst : Bytes)
    (hs : s < 64) (hj : dbuf.length ≠ 3) :
    decodeLoop len (encodeByte s :: rest) si dbuf dst
      = decodeLoop len rest (si + 1) (dbuf ++ [s]) dst := by
  rw [decodeLoop, if_pos (encodeByte_valid s hs), if_neg hj, decodeMap_encodeByte s hs]

theorem decodeLoop_sextet_last (len s : Nat) (rest : Bytes) (si : Nat) (dbuf dst : Bytes)
    (hs : s < 64) (hj : dbuf.length = 3) :
    decodeLoop len (encodeByte s :: rest) si dbuf dst
      = decodeLoop len rest (si + 1) [] (dst ++ quantum (dbuf ++ [s]) 4) := by
  rw [decodeLoop, if_pos (encodeByte_valid s hs), if_pos hj, decodeMap_encodeByte s hs]

theorem decodeLoop_pad (len : Nat) (rest : Bytes) (si : Nat) (dbuf dst : Bytes) :
    decodeLoop len (61 :: rest) si dbuf dst = padding len rest (si + 1) dbuf dst := by
  rw [decodeLoop, if_neg (by rw [decodeMap_pad]; simp), if_neg (by omega), if_neg (by simp)]

theorem quantum_full (a b c : Nat) (ha : a < 256) (hb : b < 256) (hc : c < 256) :
    quantum [(a * 65536 + b * 256 + c) / 262144 % 64, (a * 65536 + b * 256 + c) / 4096 % 64,
      (a * 65536 + b * 256 + c) / 64 % 64, (a * 65536 + b * 256 + c) % 64] 4 = [a, b, c] := by
  simp only [quantum, List.getD_cons_zero, List.getD_cons_succ]
  rw [val4_eq _ _ _ _ (Nat.mod_lt _ (by norm_num)) (Nat.mod_lt _ (by norm_num))
    (Nat.mod_lt _ (by norm_num))]
  simp only [Nat.shiftRight_eq_div_pow]
  simp
  refine ⟨?_, ?_, ?_⟩ <;> omega

theorem quantum_two (a b : Nat) (ha : a < 256) (hb : b < 256) :
    quantum [(a * 65536 + b * 256) / 262144 % 64, (a * 65536 + b * 256) / 4096 % 64,
      (a * 65536 + b * 256) / 64 % 64] 3 = [a, b] := by
  simp only [quantum, List.getD_cons_zero, List.getD_cons_succ, List.getD_nil]
  rw [val4_eq _ _ _ _ (Nat.mod_lt _ (by norm_num)) (Nat.mod_lt _ (by norm_num))
    (by norm_num)]
  simp only [Nat.shiftRight_eq_div_pow]
  simp
  refine ⟨?_, ?_⟩ <;> omega

theorem quantum_one (a : Nat) (ha : a < 256) :
    quantum [(a * 65536) / 262144 % 64, (a * 65536) / 4096 % 64] 2 = [a] := by
  simp only [quantum, List.getD_cons_zero, List.getD_cons_succ, List.getD_nil]
  rw [val4_eq _ _ _ _ (Nat.mod_lt _ (by norm_num)) (by norm_num) (by norm_num)]
  simp only [Nat.shiftRight_eq_div_pow]
  simp
  omega

theorem decodeLoop_EncodeToString (len : Nat) (b : Bytes) :
    (∀ x ∈ b, x < 256) → ∀ (si : Nat) (dst : Bytes),
      decodeLoop len (EncodeToString b) si [] dst = (dst ++ b, none) := by
  induction b using EncodeToString.induct with
  | case1 a b c rest ih =>
    intro h si dst
    have ha : a < 256 := h a (by simp)
    have hb : b < 256 := h b (by simp)
    have hc : c < 256 := h c (by simp)
    have hrest : ∀ x ∈ rest, x < 256 := fun x hx => h x (by simp [hx])
    rw [EncodeToString, val3_eq a b c hb hc]
    simp only [and_3F, Nat.shiftRight_eq_div_pow, List.cons_append, List.nil_append]
    rw [decodeLoop_sextet _ _ _ _ _ _ (Nat.mod_lt _ (by norm_num)) (by simp),
      decodeLoop_sextet _ _ _ _ _ _ (Nat.mod_lt _ (by norm_num)) (by simp),
      decodeLoop_sextet _ _ _ _ _ _ (Nat.mod_lt _ (by norm_num)) (by simp),
      decodeLoop_sextet_last _ _ _ _ _ _ (Nat.mod_lt _ (by norm_num)) (by simp)]
    simp only [List.nil_append, List.cons_append]
    have hq := quantum_full a b c ha hb hc
    norm_num at hq ⊢
    rw [hq, ih hrest]
    simp
  | case2 a b =>
    intro h si dst
    have ha : a < 256 := h a (by simp)
    have hb : b < 256 := h b (by simp)
    rw [EncodeToString]
    have hv : a <<< 16 ||| b <<< 8 = a * 65536 + b * 256 := by
      have := val3_eq a b 0 hb (by norm_num)
      simpa using this
    rw [hv]
    simp only [and_3F, Nat.shiftRight_eq_div_pow]
    rw [decodeLoop_sextet _ _ _ _ _ _ (Nat.mod_lt _ (by norm_num)) (by simp),
      decodeLoop_sextet _ _ _ _ _ _ (Nat.mod_lt _ (by norm_num)) (by simp),
      decodeLoop_sextet _ _ _ _ _ _ (Nat.mod_lt _ (by norm_num)) (by simp),
      decodeLoop_pad]
    simp only [List.nil_append, List.cons_append]
    have hq := quantum_two a b ha hb
    norm_num at hq ⊢
    simp [padding, finish, skipNewlines, hq]
  | case3 a =>
    intro h si dst
    have ha : a < 256 := h a (by simp)
    rw [EncodeToString]
    simp only [and_3F, Nat.shiftRight_eq_div_pow, Nat.shiftLeft_eq]
    rw [decodeLoop_sextet _ _ _ _ _ _ (Nat.mod_lt _ (by norm_num)) (by simp),
      decodeLoop_sextet _ _ _ _ _ _ (Nat.mod_lt _ (by norm_num)) (by simp),
      decodeLoop_pad]
    simp only [List.nil_append, List.cons_append]
    have hq := quantum_one a ha
    norm_num at hq ⊢
    simp [padding, finish, skipNewlines, hq]
  | case4 =>
    intro _ si dst
    simp [EncodeToString, decodeLoop]

theorem DecodeString_EncodeToString (b : Bytes) (h : ∀ x ∈ b, x < 256) :
    DecodeString (EncodeToString b) = (b, none) := by
  unfold DecodeString
  rw [decodeLoop_EncodeToString _ b h]
  simp

/-! ## The claims -/

/-- C1, evaluated on the code: in a fresh process with `GITLAB_TOKEN` set, a first
`getClient("https://gitlab.com")` succeeds with the handle at address 0, yet the
package-level `client` is still nil afterwards, and a following
`getClient("https://gitlab.example.org")` builds and returns a second handle, at
address 1 and for the second URL, instead of the first one. -/
theorem getClient_does_not_memoize :
    (getClient demo "https://gitlab.com" (World.init tokenEnv)).1
        = (some { addr := 0, token := "glpat-demo", baseURL := "https://gitlab.com" }, none)
      ∧ (getClient demo "https://gitlab.com" (World.init tokenEnv)).2.client = none
      ∧ (getClient demo "https://gitlab.example.org"
            (getClient demo "https://gitlab.com" (World.init tokenEnv)).2).1
          = (some { addr := 1, token := "glpat-demo", baseURL := "https://gitlab.example.org" },
              none)
      ∧ (getClient demo "https://gitlab.example.org"
            (getClient demo "https://gitlab.com" (World.init tokenEnv)).2).2.handles = 2 := by
  refine ⟨?_, ?_, ?_, ?_⟩ <;> rfl

/-- C2 as stated fails: with no handle stored and `GITLAB_TOKEN` set to the non-empty
value `glpat-demo`, `getClient` called with a base URL that holds a control
character returns no handle and the error of the library constructor. -/
theorem getClient_fails_with_token_set :
    (World.init tokenEnv).client = none
      ∧ (World.init tokenEnv).env "GITLAB_TOKEN" = some "glpat-demo"
      ∧ "glpat-demo" ≠ ""
      ∧ (getClient demo "https://gitlab.com/\x7f" (World.init tokenEnv)).1
          = (none, some (error.remote "net/url: invalid control character in URL")) := by
  refine ⟨rfl, rfl, by decide, rfl⟩

/-- C2, amended: when no handle is stored, `getClient` returns no handle and the
error `GITLAB_TOKEN not set\n` without constructing a client (the state is
unchanged) if `GITLAB_TOKEN` is unset; if it is set, to any value, `getClient`
returns what the library constructor yields for that token and URL: a newly
built handle with a nil error when the constructor succeeds, and no handle with
the constructor's error, the state unchanged, when it fails. -/
theorem getClient_first_call (lib : Gitlab) (url : String) (w : World)
    (h : w.client = none) :
    (w.env "GITLAB_TOKEN" = none →
        getClient lib url w
          = ((none, some (error.errorString "GITLAB_TOKEN not set\n")), w))
      ∧ (∀ tok, w.env "GITLAB_TOKEN" = some tok →
          (lib.NewClient tok url = none →
              getClient lib url w
                = ((some { addr := w.handles, token := tok, baseURL := url }, none),
                    { w with handles := w.handles + 1 }))
            ∧ (∀ e, lib.NewClient tok url = some e →
                getClient lib url w = ((none, some e), w))) :=
  ⟨fun he => getClient_unset lib url w h he,
    fun tok he => ⟨fun hn => getClient_built lib url w tok h he hn,
      fun e hn => getClient_rejected lib url w tok e h he hn⟩⟩

/-- C2, amended, at concrete inputs: in a fresh process without `GITLAB_TOKEN` the
accessor returns the configuration error, and with it set it returns the handle
the constructor built. -/
theorem getClient_first_call_witness :
    (World.init emptyEnv).client = none
      ∧ (getClient demo "https://gitlab.com" (World.init emptyEnv)).1
          = (none, some (error.errorString "GITLAB_TOKEN not set\n"))
      ∧ (getClient demo "https://gitlab.com" (World.init tokenEnv)).1
          = (some { addr := 0, token := "glpat-demo", baseURL := "https://gitlab.com" }, none) :=
  ⟨rfl,
    congrArg Prod.fst
      ((getClient_first_call demo "https://gitlab.com" (World.init emptyEnv) rfl).1 rfl),
    congrArg Prod.fst
      (((getClient_first_call demo "https://gitlab.com" (World.init tokenEnv) rfl).2
        "glpat-demo" rfl).1 rfl)⟩

/-- C5: if the accessor returns a handle and the remote file-get call succeeds with
a file whose transport content is the standard base64 encoding of the bytes
`b`, then `GetFile` returns exactly `b` with a nil error. -/
theorem GetFile_decodes_content (lib : Gitlab) (g : GitLabClient) (w : World) (c : Client)
    (file : File) (b : Bytes)
    (hc : (getClient lib g.URL w).1 = (some c, none))
    (hf : lib.GetFile w.log c g.Project g.Path { Ref := some g.Branch } = (some file, none))
    (hcontent : file.Content = EncodeToString b)
    (hb : ∀ x ∈ b, x < 256) :
    (GetFile lib g w).1 = Outcome.ret (some b, none) := by
  obtain ⟨_, _, hl, _⟩ := getClient_frame lib g.URL w
  unfold GetFile
  generalize getClient lib g.URL w = r at hc hl
  obtain ⟨⟨x1, y1⟩, w1⟩ := r
  simp only [Prod.mk.injEq] at hc
  obtain ⟨rfl, rfl⟩ := hc
  simp only at hl
  simp only [hl, hf, hcontent, DecodeString_EncodeToString b hb]

/-- C5 at a concrete input: the server holds `config.yaml` with transport content
base64 of `config: true`, and `GetFile` returns the bytes of `config: true`. -/
theorem GetFile_decodes_content_witness :
    (GetFile demo demoRequest (World.init tokenEnv)).1
      = Outcome.ret (some (ascii "config: true"), none) :=
  GetFile_decodes_content demo demoRequest (World.init tokenEnv)
    { addr := 0, token := "glpat-demo", baseURL := "https://gitlab.com" }
    { Content := EncodeToString (ascii "config: true") } (ascii "config: true")
    rfl rfl rfl (by decide)

/-- C7: if the accessor fails for the descriptor's URL with error `e`, each of the
nine operations returns a nil result together with `e` and issues no remote
call. -/
theorem operations_abort_on_accessor_failure (lib : Gitlab) (g : GitLabClient)
    (files : List (String × String)) (w : World) (x : Option Client) (e : error)
    (h : (getClient lib g.URL w).1 = (x, some e)) :
    abortedWith (CreateBranch lib g w) e w
      ∧ abortedWith (CreateCommit lib g files w) e w
      ∧ abortedWith (CreateMergeRequest lib g w) e w
      ∧ abortedWith (CreatePullMirror lib g w) e w
      ∧ abortedWith (DeleteBranch lib g w) e w
      ∧ abortedWith (GetBranch lib g w) e w
      ∧ abortedWith (GetFile lib g w) e w
      ∧ abortedWith (GetForkParent lib g w) e w
      ∧ abortedWith (GetProject lib g w) e w := by
  have hl := (getClient_frame lib g.URL w).2.2.1
  simp only [abortedWith, CreateBranch_of_fail lib g w x e h,
    CreateCommit_of_fail lib g files w x e h, CreateMergeRequest_of_fail lib g w x e h,
    CreatePullMirror_of_fail lib g w x e h, DeleteBranch_of_fail lib g w x e h,
    GetBranch_of_fail lib g w x e h, GetFile_of_fail lib g w x e h,
    GetForkParent_of_fail lib g w x e h, GetProject_of_fail lib g w x e h, hl, and_self]

/-- C7 at a concrete input: without `GITLAB_TOKEN` the accessor fails, and all nine
operations abort with its error. -/
theorem operations_abort_on_accessor_failure_witness :
    (getClient demo demoRequest.URL (World.init emptyEnv)).1
        = (none, some (error.errorString "GITLAB_TOKEN not set\n"))
      ∧ abortedWith (CreateCommit demo demoRequest [("a.txt", "hello")] (World.init emptyEnv))
          (error.errorString "GITLAB_TOKEN not set\n") (World.init emptyEnv)
      ∧ abortedWith (GetForkParent demo demoRequest (World.init emptyEnv))
          (error.errorString "GITLAB_TOKEN not set\n") (World.init emptyEnv) :=
  ⟨rfl,
    (operations_abort_on_accessor_failure demo demoRequest [("a.txt", "hello")]
      (World.init emptyEnv) none _ rfl).2.1,
    (operations_abort_on_accessor_failure demo demoRequest [("a.txt", "hello")]
      (World.init emptyEnv) none _ rfl).2.2.2.2.2.2.2.1⟩

/-- C8: for any two descriptors, whenever the accessor returns a handle, the
mirror-add request of `CreatePullMirror` carries the fixed URL and `Enabled`
true in both runs; the descriptor only supplies the project the request is
addressed to. -/
theorem CreatePullMirror_request (lib : Gitlab) (g1 g2 : GitLabClient) (w1 w2 : World)
    (c1 c2 : Client)
    (h1 : (getClient lib g1.URL w1).1 = (some c1, none))
    (h2 : (getClient lib g2.URL w2).1 = (some c2, none)) :
    (CreatePullMirror lib g1 w1).2.log
        = w1.log ++ [Call.AddProjectMirror c1 g1.Project
            { URL := some "https://gitlab.cee.redhat.com/service/clusterimagesets.git",
              Enabled := some true }]
      ∧ (CreatePullMirror lib g2 w2).2.log
        = w2.log ++ [Call.AddProjectMirror c2 g2.Project
            { URL := some "https://gitlab.cee.redhat.com/service/clusterimagesets.git",
              Enabled := some true }] := by
  rw [CreatePullMirror_of_ok lib g1 w1 c1 h1, CreatePullMirror_of_ok lib g2 w2 c2 h2]
  exact ⟨rfl, rfl⟩

/-- C8 at concrete inputs: descriptors for two different projects yield the same
mirror URL. -/
theorem CreatePullMirror_request_witness :
    (CreatePullMirror demo demoRequest (World.init tokenEnv)).2.log
        = [Call.AddProjectMirror
            { addr := 0, token := "glpat-demo", baseURL := "https://gitlab.com" } "fork/repo"
            { URL := some "https://gitlab.cee.redhat.com/service/clusterimagesets.git",
              Enabled := some true }]
      ∧ (CreatePullMirror demo { demoRequest with Project := "upstream/repo" }
          (World.init tokenEnv)).2.log
        = [Call.AddProjectMirror
            { addr := 0, token := "glpat-demo", baseURL := "https://gitlab.com" } "upstream/repo"
            { URL := some "https://gitlab.cee.redhat.com/service/clusterimagesets.git",
              Enabled := some true }] :=
  CreatePullMirror_request demo demoRequest { demoRequest with Project := "upstream/repo" }
    (World.init tokenEnv) (World.init tokenEnv) _ _ rfl rfl

/-- C3: if the branch fetch of `CreateCommit` fails and the branch creation
succeeds, the remote calls are get-branch, create-branch, create-commit in this
order, and the single commit request names the descriptor's branch and message
and carries one action per file-set entry: as many actions as entries, every
action a literal update, and for every entry exactly one update action with
its path and its content. -/
theorem CreateCommit_creates_missing_branch (lib : Gitlab) (g : GitLabClient)
    (files : List (String × String)) (w : World)
    (hkeys : (files.map Prod.fst).Nodup)
    (hGet : ∃ b e, (GetBranch lib g (getClient lib g.URL w).2).1 = Outcome.ret (b, some e))
    (hCreate : ∃ b, (CreateBranch lib g (GetBranch lib g (getClient lib g.URL w).2).2).1
      = Outcome.ret (b, none)) :
    ∃ c0 c1 c2 opt,
      (CreateCommit lib g files w).2.log
          = w.log ++ [Call.GetBranch c1 g.Project g.Branch,
              Call.CreateBranch c2 g.Project
                { Branch := some g.Branch, Ref := some w.BaseBranch },
              Call.CreateCommit c0 g.Project opt]
        ∧ opt.Branch = some g.Branch ∧ opt.CommitMessage = some g.Message
        ∧ opt.Actions.length = files.length
        ∧ (∀ a ∈ opt.Actions,
            a.Action = some FileActionValue.FileUpdate ∧ a.Encoding = none)
        ∧ ∀ p c, (p, c) ∈ files → opt.Actions.countP (isUpdateOf p c) = 1 := by
  obtain ⟨b, e0, hG⟩ := hGet
  obtain ⟨b1, hC⟩ := hCreate
  rcases getClient_cases lib g.URL w with ⟨c0, hok⟩ | ⟨e, hfail, hw⟩
  · obtain ⟨c1, c2, _, hlog⟩ := branch_fallback_log lib g w c0 hok
    refine ⟨c0, c1, c2, commitOptions g files, ?_, rfl, rfl, ?_, ?_, ?_⟩
    · rw [CreateCommit_branch_created lib g files w c0 b b1 e0 hok hG hC, submitCommit_log,
        hlog]
      simp
    · simp [commitOptions, buildActions_eq]
    · intro a ha
      simp only [commitOptions, buildActions_eq, List.nil_append, List.mem_map] at ha
      obtain ⟨e, _, rfl⟩ := ha
      exact ⟨rfl, rfl⟩
    · intro p c hmem
      exact buildActions_count files hkeys p c hmem
  · rw [hw, GetBranch_of_fail lib g w none e hfail, hw,
      CreateBranch_of_fail lib g w none e hfail] at hC
    simp at hC

/-- C3 at the file set with `a.txt` holding `hello` and `b.txt` holding `world`, on
a server where the branch `feature` does not exist yet: the branch is created
before the commit, and the commit carries exactly two actions, one update of
`a.txt` with `hello` and one update of `b.txt` with `world`. -/
theorem CreateCommit_creates_missing_branch_witness :
    ∃ c0 c1 c2 opt,
      (CreateCommit demo demoRequest [("a.txt", "hello"), ("b.txt", "world")]
          (World.init tokenEnv)).2.log
          = [Call.GetBranch c1 "fork/repo" "feature",
              Call.CreateBranch c2 "fork/repo" { Branch := some "feature", Ref := some "master" },
              Call.CreateCommit c0 "fork/repo" opt]
        ∧ opt.Actions.length = 2
        ∧ opt.Actions.countP (isUpdateOf "a.txt" "hello") = 1
        ∧ opt.Actions.countP (isUpdateOf "b.txt" "world") = 1 := by
  obtain ⟨c0, c1, c2, opt, hlog, _, _, hlen, _, hcount⟩ :=
    CreateCommit_creates_missing_branch demo demoRequest
      [("a.txt", "hello"), ("b.txt", "world")] (World.init tokenEnv) (by decide)
      ⟨none, error.remote "404 Branch Not Found", rfl⟩ ⟨some { Name := "feature" }, rfl⟩
  exact ⟨c0, c1, c2, opt, hlog, hlen, hcount "a.txt" "hello" (by simp),
    hcount "b.txt" "world" (by simp)⟩

/-- C4: if the branch fetch of `CreateCommit` succeeds, the remote calls made are
exactly get-branch followed by create-commit; no branch is created. -/
theorem CreateCommit_existing_branch (lib : Gitlab) (g : GitLabClient)
    (files : List (String × String)) (w : World)
    (hGet : ∃ b, (GetBranch lib g (getClient lib g.URL w).2).1 = Outcome.ret (b, none)) :
    ∃ c0 c1 opt,
      (CreateCommit lib g files w).2.log
        = w.log ++ [Call.GetBranch c1 g.Project g.Branch, Call.CreateCommit c0 g.Project opt] := by
  obtain ⟨b, hG⟩ := hGet
  rcases getClient_cases lib g.URL w with ⟨c0, hok⟩ | ⟨e, hfail, hw⟩
  · obtain ⟨c1, _, hlog, _⟩ := branch_fallback_log lib g w c0 hok
    refine ⟨c0, c1, commitOptions g files, ?_⟩
    rw [CreateCommit_branch_exists lib g files w c0 b hok hG, submitCommit_log, hlog]
    simp
  · rw [hw, GetBranch_of_fail lib g w none e hfail] at hG
    simp at hG

/-- C4 on a server where the branch `master` exists: a commit to `master` makes the
calls get-branch and create-commit only. -/
theorem CreateCommit_existing_branch_witness :
    ∃ c0 c1 opt,
      (CreateCommit demo { demoRequest with Branch := "master" } [("a.txt", "hello")]
          (World.init tokenEnv)).2.log
        = [Call.GetBranch c1 "fork/repo" "master", Call.CreateCommit c0 "fork/repo" opt] :=
  CreateCommit_existing_branch demo { demoRequest with Branch := "master" }
    [("a.txt", "hello")] (World.init tokenEnv) ⟨some { Name := "master" }, rfl⟩

/-- C9: if the branch fetch of `CreateCommit` fails, with whatever error, and the
branch creation then fails with `e`, `CreateCommit` returns a nil commit and
exactly `e`, and no commit-creation request is submitted; when the accessor
returned a handle, the calls made are get-branch followed by create-branch. -/
theorem CreateCommit_branch_creation_fails (lib : Gitlab) (g : GitLabClient)
    (files : List (String × String)) (w : World) (e : error)
    (hGet : ∃ b e0, (GetBranch lib g (getClient lib g.URL w).2).1 = Outcome.ret (b, some e0))
    (hCreate : ∃ b, (CreateBranch lib g (GetBranch lib g (getClient lib g.URL w).2).2).1
      = Outcome.ret (b, some e)) :
    (CreateCommit lib g files w).1 = Outcome.ret (none, some e)
      ∧ (∃ added, (CreateCommit lib g files w).2.log = w.log ++ added
          ∧ ∀ call ∈ added, call.isCreateCommit = false)
      ∧ ∀ c, (getClient lib g.URL w).1 = (some c, none) →
          ∃ c1 c2, (CreateCommit lib g files w).2.log
            = w.log ++ [Call.GetBranch c1 g.Project g.Branch,
                Call.CreateBranch c2 g.Project
                  { Branch := some g.Branch, Ref := some w.BaseBranch }] := by
  obtain ⟨b, e0, hG⟩ := hGet
  obtain ⟨b1, hC⟩ := hCreate
  rcases getClient_cases lib g.URL w with ⟨c0, hok⟩ | ⟨e1, hfail, hw⟩
  · obtain ⟨c1, c2, _, hlog⟩ := branch_fallback_log lib g w c0 hok
    rw [CreateCommit_branch_failed lib g files w c0 b b1 e0 e hok hG hC]
    refine ⟨rfl, ⟨_, hlog, ?_⟩, fun _ _ => ⟨c1, c2, hlog⟩⟩
    intro call hcall
    simp only [List.mem_cons, List.mem_singleton, List.not_mem_nil, or_false] at hcall
    rcases hcall with rfl | rfl <;> rfl
  · rw [hw, GetBranch_of_fail lib g w none e1 hfail, hw,
      CreateBranch_of_fail lib g w none e1 hfail] at hC
    simp only [Outcome.ret.injEq, Prod.mk.injEq, Option.some.injEq] at hC
    obtain ⟨_, rfl⟩ := hC
    rw [CreateCommit_of_fail lib g files w none e1 hfail, hw]
    refine ⟨rfl, ⟨[], by simp, by simp⟩, ?_⟩
    intro c hc
    rw [hfail] at hc
    simp at hc

/-- C9 on a server that has no branch with the empty name and refuses to create
one: `CreateCommit` returns the creation error and submits no commit. -/
theorem CreateCommit_branch_creation_fails_witness :
    (CreateCommit demo { demoRequest with Branch := "" } [("a.txt", "hello")]
        (World.init tokenEnv)).1
      = Outcome.ret (none, some (error.remote "400 Bad Request: branch is invalid")) :=
  (CreateCommit_branch_creation_fails demo { demoRequest with Branch := "" }
    [("a.txt", "hello")] (World.init tokenEnv) _
    ⟨none, error.remote "404 Branch Not Found", rfl⟩ ⟨none, rfl⟩).1

/-- C6, evaluated on the code: for `upstream/repo`, whose project fetch succeeds with
a nil `ForkedFromProject`, `GetForkParent` returns a nil fork parent and a nil
error, and `CreateMergeRequest` does not return an error: it panics with a nil
pointer dereference.  The only remote call made is the project fetch, so no
merge-request creation is submitted. -/
theorem CreateMergeRequest_panics_without_fork_parent :
    (GetProject demo upstreamRequest (World.init tokenEnv)).1
        = Outcome.ret (some { ID := 1, ForkedFromProject := none }, none)
      ∧ (GetForkParent demo upstreamRequest (World.init tokenEnv)).1 = Outcome.ret (none, none)
      ∧ (CreateMergeRequest demo upstreamRequest (World.init tokenEnv)).1
          = Outcome.panic nilDeref
      ∧ (CreateMergeRequest demo upstreamRequest (World.init tokenEnv)).2.log
          = [Call.GetProject
              { addr := 1, token := "glpat-demo", baseURL := "https://gitlab.com" }
              "upstream/repo" { Statistics := none }] := by
  refine ⟨?_, ?_, ?_, ?_⟩ <;> rfl

/-- C10: whenever the accessor returns a handle, `CreatePullMirror` returns the
value of the mirror-add call with a nil error, and, when the fork-parent fetch
succeeds with a fork parent, `CreateMergeRequest` returns the value of the
merge-request creation call with a nil error; the error component of the final
call's reply does not reach the result, whatever it is. -/
theorem final_call_error_is_dropped (lib : Gitlab) (g : GitLabClient) (w : World) (c : Client)
    (hc : (getClient lib g.URL w).1 = (some c, none)) :
    (∀ fp, (GetForkParent lib g (getClient lib g.URL w).2).1 = Outcome.ret (some fp, none) →
        (CreateMergeRequest lib g w).1
          = Outcome.ret ((lib.CreateMergeRequest
              (GetForkParent lib g (getClient lib g.URL w).2).2.log c g.Project
              { Title := some g.Message, SourceBranch := some g.Branch,
                TargetBranch := some w.BaseBranch, TargetProjectID := some fp.ID }).1, none))
      ∧ (CreatePullMirror lib g w).1
          = Outcome.ret ((lib.AddProjectMirror w.log c g.Project
              { URL := some "https://gitlab.cee.redhat.com/service/clusterimagesets.git",
                Enabled := some true }).1, none) := by
  refine ⟨?_, ?_⟩
  · intro fp hF
    have hb := GetForkParent_BaseBranch lib g (getClient lib g.URL w).2
    rw [(getClient_frame lib g.URL w).2.2.2] at hb
    rw [CreateMergeRequest_of_ok lib g w c hc]
    generalize GetForkParent lib g (getClient lib g.URL w).2 = r at hF hb
    obtain ⟨o, w2⟩ := r
    simp only at hF hb
    subst hF
    simp only [hb]
  · rw [CreatePullMirror_of_ok lib g w c hc]

/-- C10 on a server that refuses merge-request creation with `409 Conflict` and
mirror creation with `403 Forbidden`: both operations still return a nil
error, next to a nil value. -/
theorem final_call_error_is_dropped_witness :
    (CreateMergeRequest demo demoRequest (World.init tokenEnv)).1 = Outcome.ret (none, none)
      ∧ (CreatePullMirror demo demoRequest (World.init tokenEnv)).1 = Outcome.ret (none, none) :=
  ⟨(final_call_error_is_dropped demo demoRequest (World.init tokenEnv)
      { addr := 0, token := "glpat-demo", baseURL := "https://gitlab.com" } rfl).1
      { ID := 1 } rfl,
    (final_call_error_is_dropped demo demoRequest (World.init tokenEnv)
      { addr := 0, token := "glpat-demo", baseURL := "https://gitlab.com" } rfl).2⟩

end gitlabclient
